import Mathlib

/-!
Shallow embedding of `src/engine/source/builder/builders/stageBuilderNormalize.cpp`
(the `normalize` stage compiler of the wazuh event-processing engine) together
with spec-modelled contracts for its external collaborators (the registry
operation builders `map` and `check` and the combinator builders
`combinator.chain` and `combinator.broadcast`, which are not part of the
source tree given here and are therefore modelled from the specification,
with doc comments saying so).

Configuration values are rapidjson `DocumentValue`s; they are modelled as a
JSON tree.  Arrays carry their rapidjson capacity explicitly, because
`normalizeCheck` inspects `GetArray().Capacity()` (not `Size()`).
-/

namespace NormalizeStage

/-- JSON-like configuration value (rapidjson `DocumentValue`).  Arrays carry
their reserved capacity (`Capacity()`) beside the actual elements, since the
source consults it. -/
inductive JValue where
  | null
  | bool (b : Bool)
  | num (n : Int)
  | str (s : String)
  | arr (elems : List JValue) (cap : Nat)
  | obj (members : List (String × JValue))

/-- rapidjson `IsObject()`. -/
def JValue.isObject : JValue → Bool
  | .obj _ => true
  | _ => false

/-- rapidjson `IsArray()`. -/
def JValue.isArray : JValue → Bool
  | .arr _ _ => true
  | _ => false

/-- rapidjson `GetType()` enum value (kNullType = 0, kFalseType = 1,
kTrueType = 2, kObjectType = 3, kArrayType = 4, kStringType = 5,
kNumberType = 6); it is printed into error messages. -/
def JValue.getType : JValue → Nat
  | .null => 0
  | .bool false => 1
  | .bool true => 2
  | .obj _ => 3
  | .arr _ _ => 4
  | .str _ => 5
  | .num _ => 6

/-- rapidjson `MemberCount()` (0 on non-objects, where the real call would be
an assertion failure; every use in the source is guarded by `IsObject`). -/
def JValue.memberCount : JValue → Nat
  | .obj ms => ms.length
  | _ => 0

/-- rapidjson `HasMember(k)`: first member with that name exists. -/
def JValue.hasMember (v : JValue) (k : String) : Bool :=
  match v with
  | .obj ms => (List.lookup k ms).isSome
  | _ => false

/-- rapidjson `operator[](k)`: the value of the first member named `k`
(querying a missing member is UB in rapidjson; every use in the source is
guarded by `HasMember`, we return `null` outside the guard). -/
def JValue.getMember (v : JValue) (k : String) : JValue :=
  match v with
  | .obj ms => (List.lookup k ms).getD .null
  | _ => .null

/-- The elements of an array value (`Begin()`..`End()`). -/
def JValue.elemsOf : JValue → List JValue
  | .arr es _ => es
  | _ => []

/-- rapidjson `GetArray().Capacity()` (0 on non-arrays). -/
def JValue.capacity : JValue → Nat
  | .arr _ c => c
  | _ => 0

/-- C++ exception categories that appear in the source:
`std::invalid_argument` for local structural violations and
`std::runtime_error` for re-thrown (wrapped) nested failures. -/
inductive ErrKind where
  | invalidArgument
  | runtime
deriving DecidableEq

/-- A thrown exception.  `Err.base` is a plain `std::throw_with_nested(e)`
outside any catch block (so it has no nested cause); `Err.nested` is a
`std::throw_with_nested(e)` inside a catch block, which records the caught
exception as the inner cause. -/
inductive Err where
  | base (kind : ErrKind) (msg : String)
  | nested (kind : ErrKind) (msg : String) (cause : Err)

/-- The `what()` message of an exception. -/
def Err.what : Err → String
  | .base _ m => m
  | .nested _ m _ => m

/-- The kind of the outermost exception. -/
def Err.kind : Err → ErrKind
  | .base k _ => k
  | .nested k _ _ => k

/-- A `try { ... } catch (std::exception &e) { throw_with_nested(runtime_error(
pre + e.what() + post)); }` block around a nested build call: on success it is
transparent, on failure it re-raises a `runtime_error` whose message embeds
`e.what()` between `pre` and `post` and whose nested cause is `e`. -/
def rethrowWrapped (pre post : String) : Except Err α → Except Err α
  | .ok a => .ok a
  | .error e => .error (.nested .runtime (pre ++ e.what ++ post) e)

/-- A runtime document being normalized: a flat object of fields.  Documents
are mutated in place by `map` operations; the model threads the document
state explicitly. -/
abbrev Doc := List (String × JValue)

/-- Pipeline of stream operations built by the stage compiler.  `seq` is the
serial composition produced by the `combinator.chain` builder; `idOp` is the
empty chain (the identity transformer the spec requires for an empty list). -/
inductive Op where
  | idOp
  | mapOp (assigns : List (String × JValue))
  | checkOp (conds : List JValue)
  | seq (a b : Op)

/-- Right-nested serial composition of a list of operations, the meaning of
`combinator.chain` on a list (empty list yields the identity). -/
def chainOf (ops : List Op) : Op := ops.foldr .seq .idOp

/-- Modelled from the spec: the registry `map` operation builder (spec section
4.2, external to the given source).  Its config must be an object with at
least one member (field to value-expression pairs); it fails with
`InvalidArgument` if the config is not an object or has zero members, and
otherwise yields a transformer that assigns each field and emits the mutated
document exactly once. -/
def mapBuilder (config : JValue) : Except Err Op :=
  match config with
  | .obj [] => .error (.base .invalidArgument "map builder: config must be a non-empty object")
  | .obj ms => .ok (.mapOp ms)
  | _ => .error (.base .invalidArgument "map builder: config must be an object")

/-- Modelled from the spec: the registry `check` operation builder (spec
section 4.2, external to the given source).  Its config must be a non-empty
array of predicate conditions; it fails with `InvalidArgument` if the config
is not an array or is empty (zero elements), and otherwise yields a
transformer that emits the document unchanged when all conditions hold and
emits nothing otherwise, never mutating. -/
def checkBuilder (config : JValue) : Except Err Op :=
  match config with
  | .arr [] _ => .error (.base .invalidArgument "check builder: config must be a non-empty array")
  | .arr cs _ => .ok (.checkOp cs)
  | _ => .error (.base .invalidArgument "check builder: config must be an array")

/-- Modelled from the spec: the registry `combinator.chain` builder (spec
section 4.1, external to the given source): serial composition of the listed
transformers; it never fails, and an empty list yields the identity. -/
def chainBuilder (ops : List Op) : Except Err Op := .ok (chainOf ops)

/-- `normalizeMap` (source lines 27-93): validates that the `map` config is a
non-empty object, then builds one registry `map` operation per member (each
fed a synthesized one-member object) wrapping any nested failure, and chains
them, wrapping any failure of the chain call as well. -/
def normalizeMap (ref : JValue) : Except Err Op :=
  if ¬ ref.isObject then
    .error (.base .invalidArgument "Invalid \"map\" element, it should be an object.")
  else if ref.memberCount = 0 then
    .error (.base .invalidArgument "Invalid \"map\" element, it can not be empty.")
  else do
    let mapOps ← (match ref with | .obj ms => ms | _ => []).mapM (fun kv =>
      rethrowWrapped "Stage normalize builder encountered exception on building: [" "]"
        (mapBuilder (.obj [kv])))
    rethrowWrapped "Stage normalize builder encountered exception on building: [" "]"
      (chainBuilder mapOps)

/-- `normalizeCheck` (source lines 95-144): validates that the `check` config
is an array and that the array is non-empty — testing rapidjson `Capacity()`,
not `Size()` — then builds the registry `check` operation on the array and
chains the singleton list, wrapping nested failures. -/
def normalizeCheck (ref : JValue) : Except Err Op :=
  if ¬ ref.isArray then
    .error (.base .invalidArgument "Invalid \"check\" object, it should be an array.")
  else if ref.capacity = 0 then
    .error (.base .invalidArgument "Invalid \"check\" object, it can not be empty.")
  else do
    let c ← rethrowWrapped "Stage normalize builder encountered exception on building: [" "]"
      (checkBuilder ref)
    rethrowWrapped "Stage normalize builder encountered exception on building: [" "]"
      (chainBuilder [c])

/-- `normalizeConditionalMap` (source lines 146-202): requires exactly two
members (`check` and `map`) before building anything, then builds the check
half and the map half — each wrapped with its own context on failure — and
chains check before map. -/
def normalizeConditionalMap (d : JValue) : Except Err Op :=
  if d.memberCount ≠ 2 then
    .error (.base .invalidArgument
      ("Invalid conditional map configuration, two (2) elements were expected, \"check\" and \"map\", but got: "
        ++ toString d.memberCount))
  else do
    let c ← rethrowWrapped
      "Stage normalize conditional map builder encountered exception on building the \"check\" object: [" "]."
      (normalizeCheck (d.getMember "check"))
    let m ← rethrowWrapped
      "Stage normalize conditional map builder encountered exception on building the \"map\" object: [" "]."
      (normalizeMap (d.getMember "map"))
    rethrowWrapped "Stage normalize conditional map builder encountered exception on building: [" "]"
      (chainBuilder [c, m])

/-- Loop body of `stageBuilderNormalize` (source lines 219-253): classify an
array element and build its branch.  An object with `map` and `check` becomes
a conditional map branch, with `map` only a plain map branch built from the
`map` member, otherwise a structural error.  Note that this loop has no
try/catch: failures of the branch builds propagate unwrapped. -/
def buildElem (v : JValue) : Except Err Op :=
  if v.isObject then
    if v.hasMember "map" then
      if v.hasMember "check" then normalizeConditionalMap v
      else normalizeMap (v.getMember "map")
    else
      .error (.base .invalidArgument
        "Stage normalize builder, there is a conditional map object with no \"map\" element on it.")
  else
    .error (.base .invalidArgument
      ("Stage normalize builder, each \"normalize\" array element should be an object but got ["
        ++ toString v.getType ++ "]."))

/-- A type-erased `Lifter` (`std::function`) value as stored in the
`normalizeOps` vector at the end of `stageBuilderNormalize`.  `built` is a
branch transformer as returned by the branch builders; `wrapper slot` is the
suppression lambda `[&op](Observable in) { return op(in).filter(false); }` of
source lines 266-273 — it captures by reference the very vector slot it is
then assigned into, so at call time it dereferences slot `slot` of the final
vector (which holds the wrapper itself, the originally built `Lifter` having
been destroyed by the assignment); `passThrough` is the dummy publisher
`[](Observable in) { return in; }` of source line 275. -/
inductive Cl where
  | built (op : Op)
  | wrapper (slot : Nat)
  | passThrough

/-- The in-place wrapping loop of source lines 266-273: every slot of the
vector is overwritten with a wrapper lambda referring to that same slot. -/
def wrapOutputs (slots : List Cl) : List Cl :=
  (List.range slots.length).map Cl.wrapper

/-- The transformer returned by the stage builder: the list of `Lifter`s
handed to `combinator.broadcast` (each subscribed independently to the same
upstream, outputs unioned). -/
structure Stage where
  slots : List Cl

/-- Modelled from the spec: the registry `combinator.broadcast` builder (spec
section 4.1, external to the given source): subscribes every listed
transformer to the same source and emits the union of their outputs; it never
fails. -/
def broadcastBuilder (cls : List Cl) : Except Err Stage := .ok ⟨cls⟩

/-- `stageBuilderNormalize` (source lines 204-289): checks the config is an
array, builds each element's branch (failures propagate unwrapped out of the
loop), then — inside one try/catch — overwrites every branch slot with the
output-suppressing wrapper, appends the dummy pass-through publisher, and
combines everything with `combinator.broadcast`. -/
def stageBuilderNormalize (d : JValue) : Except Err Stage :=
  if ¬ d.isArray then
    .error (.base .invalidArgument
      ("Stage normalize builder, expected \"normalize\" to be an array but got ["
        ++ toString d.getType ++ "]."))
  else
    match d.elemsOf.mapM buildElem with
    | .error e => .error e
    | .ok normalizeOps =>
        rethrowWrapped "Stage normalize builder encountered exception on building: [" "]"
          (broadcastBuilder (wrapOutputs (normalizeOps.map Cl.built) ++ [Cl.passThrough]))

/-- Equality of scalar JSON values (used by the modelled predicate
conditions). -/
def scalarEq : JValue → JValue → Bool
  | .null, .null => true
  | .bool a, .bool b => a == b
  | .num a, .num b => a == b
  | .str a, .str b => a == b
  | _, _ => false

/-- Set a field of a document in place: replace the first binding of the
field if present, append otherwise. -/
def setField (d : Doc) (k : String) (v : JValue) : Doc :=
  if d.any (fun p => p.1 == k) then
    d.map (fun p => if p.1 == k then (k, v) else p)
  else
    d ++ [(k, v)]

/-- Apply the field assignments of a `map` operation, in member order. -/
def applyAssigns (ms : List (String × JValue)) (d : Doc) : Doc :=
  ms.foldl (fun d kv => setField d kv.1 kv.2) d

/-- Modelled from the spec: one predicate condition of a `check` operation
(the spec leaves the predicate language external; we model a condition as a
one-member object requiring field equality with a scalar value). -/
def evalCond (c : JValue) (d : Doc) : Bool :=
  match c with
  | .obj [(k, v)] =>
      match List.lookup k d with
      | some w => scalarEq w v
      | none => false
  | _ => false

/-- A `check` operation holds when all its conditions hold. -/
def evalConds (cs : List JValue) (d : Doc) : Bool :=
  cs.all (fun c => evalCond c d)

/-- Result of running an operation on one document of the shared stream:
whether the operation emitted the document downstream, and the document
state afterwards (mutation in place is modelled by threading the state). -/
structure StepRes where
  emitted : Bool
  doc : Doc

/-- Single-document semantics of a built operation: `map` mutates and emits
exactly once; `check` emits the unchanged document iff its conditions hold;
`seq` feeds the first operation's output into the second, so when the first
emits nothing the second never runs (its mutations never happen). -/
def runOp : Op → Doc → StepRes
  | .idOp, d => ⟨true, d⟩
  | .mapOp ms, d => ⟨true, applyAssigns ms d⟩
  | .checkOp cs, d => ⟨evalConds cs d, d⟩
  | .seq a b, d =>
      let r := runOp a d
      if r.emitted then runOp b r.doc else r

/-- Sequential execution of a list of branch transformers over the same
in-place-mutated document (spec section 5: one document in flight through a
stage's branches at a time): each branch's mutations are visible to the
next. -/
def runBranches (bs : List Op) (d : Doc) : Doc :=
  bs.foldl (fun d b => (runOp b d).doc) d

/-- Stream semantics of a built operation: documents are processed
independently; dropped documents disappear from the output. -/
def runStream (op : Op) (s : List Doc) : List Doc :=
  s.filterMap (fun d =>
    let r := runOp op d
    if r.emitted then some r.doc else none)

/-- Invocation semantics of a stored `Lifter`, with the whole slot vector
`store` in scope (the wrappers dereference their captured slot at call time)
and explicit fuel: a `wrapper` reads its slot and filters every item out of
that transformer's output; evaluation that does not finish within the fuel
yields `none` (after the wrapping loop slot `i` holds `wrapper i`, so a
wrapper's self-call never finishes for any fuel). -/
def evalCl (store : List Cl) : Nat → Cl → List Doc → Option (List Doc)
  | 0, _, _ => none
  | _ + 1, .built op, s => some (runStream op s)
  | fuel + 1, .wrapper i, s =>
      match store[i]? with
      | some c => (evalCl store fuel c s).map (List.filter (fun _ => false))
      | none => none
  | _ + 1, .passThrough, s => some s

/-- Invocation semantics of the stage transformer returned by
`stageBuilderNormalize`: broadcast subscribes every stored `Lifter` to the
same input stream and emits the union of their outputs. -/
def evalStage (st : Stage) (fuel : Nat) (input : List Doc) : Option (List Doc) :=
  (st.slots.mapM (fun c => evalCl st.slots fuel c input)).map List.flatten

/-- Mapping a fallible builder over a list preserves the length on success. -/
theorem mapM_ok_length {α β : Type} (f : α → Except Err β) :
    ∀ (l : List α) (bs : List β), l.mapM f = .ok bs → bs.length = l.length := by
  intro l
  induction l with
  | nil =>
    intro bs h
    have h0 : ([] : List α).mapM f = .ok ([] : List β) := rfl
    rw [h0] at h
    rw [← Except.ok.inj h]
    rfl
  | cons a l ih =>
    intro bs h
    rw [List.mapM_cons] at h
    cases hfa : f a with
    | error e => rw [hfa] at h; simp [Bind.bind, Except.bind] at h
    | ok b =>
      rw [hfa] at h
      cases hml : l.mapM f with
      | error e => rw [hml] at h; simp [Bind.bind, Except.bind] at h
      | ok bs' =>
        rw [hml] at h
        simp [Bind.bind, Except.bind, Pure.pure, Except.pure] at h
        subst h
        simp [ih bs' hml]

/-- When every element builds, mapping the builder over the list succeeds. -/
theorem mapM_ok_of_forall {α β : Type} (f : α → Except Err β) :
    ∀ (l : List α), (∀ e ∈ l, ∃ b, f e = .ok b) →
      ∃ bs, l.mapM f = .ok bs ∧ bs.length = l.length := by
  intro l
  induction l with
  | nil => intro _; exact ⟨[], rfl, rfl⟩
  | cons a l ih =>
    intro h
    obtain ⟨b, hb⟩ := h a (by simp)
    obtain ⟨bs, hbs, hlen⟩ := ih (fun e he => h e (by simp [he]))
    refine ⟨b :: bs, ?_, by simp [hlen]⟩
    rw [List.mapM_cons, hb, hbs]
    simp [Bind.bind, Except.bind, Pure.pure, Except.pure]

/-- When mapping the builder over a list succeeds, every element built. -/
theorem mapM_ok_mem {α β : Type} (f : α → Except Err β) :
    ∀ (l : List α) (bs : List β), l.mapM f = .ok bs → ∀ e ∈ l, ∃ b, f e = .ok b := by
  intro l
  induction l with
  | nil => intro bs _ e he; simp at he
  | cons a l ih =>
    intro bs h e he
    rw [List.mapM_cons] at h
    cases hfa : f a with
    | error e' => rw [hfa] at h; simp [Bind.bind, Except.bind] at h
    | ok b =>
      rw [hfa] at h
      cases hml : l.mapM f with
      | error e' => rw [hml] at h; simp [Bind.bind, Except.bind] at h
      | ok bs' =>
        rcases List.mem_cons.mp he with rfl | he'
        · exact ⟨b, hfa⟩
        · exact ih bs' hml e he'

/-- When some element fails to build, mapping the builder over the list
fails. -/
theorem mapM_error_of_exists_bad {α β : Type} (f : α → Except Err β) :
    ∀ (l : List α), (∃ e ∈ l, ∀ b, f e ≠ .ok b) →
      ∃ err, l.mapM f = .error err := by
  intro l
  induction l with
  | nil => intro h; obtain ⟨e, he, _⟩ := h; simp at he
  | cons a l ih =>
    intro h
    cases hfa : f a with
    | error err => exact ⟨err, by rw [List.mapM_cons, hfa]; simp [Bind.bind, Except.bind]⟩
    | ok b =>
      obtain ⟨e, he, hbad⟩ := h
      rcases List.mem_cons.mp he with rfl | he'
      · exact absurd hfa (hbad b)
      · obtain ⟨err, herr⟩ := ih ⟨e, he', hbad⟩
        exact ⟨err, by rw [List.mapM_cons, hfa, herr]; simp [Bind.bind, Except.bind]⟩


theorem wrapper_self_diverges (store : List Cl) (i : Nat)
    (hi : store[i]? = some (Cl.wrapper i)) :
    ∀ (fuel : Nat) (input : List Doc), evalCl store fuel (Cl.wrapper i) input = none := by
  intro fuel
  induction fuel with
  | zero => intro input; rfl
  | succ n ih =>
    intro input
    show (match store[i]? with
      | some c => (evalCl store n c input).map (List.filter (fun _ => false))
      | none => none) = none
    rw [hi]
    show (evalCl store n (Cl.wrapper i) input).map (List.filter (fun _ => false)) = none
    rw [ih input]
    rfl

theorem buildElem_bad (e : JValue)
    (h : ¬ e.isObject = true ∨ ¬ e.hasMember "map" = true) :
    ∃ msg, buildElem e = .error (.base .invalidArgument msg) := by
  by_cases ho : e.isObject = true
  · have hm : ¬ e.hasMember "map" = true := by tauto
    exact ⟨"Stage normalize builder, there is a conditional map object with no \"map\" element on it.",
      by simp [buildElem, ho, hm]⟩
  · exact ⟨"Stage normalize builder, each \"normalize\" array element should be an object but got ["
        ++ toString e.getType ++ "].",
      by simp [buildElem, ho]⟩

theorem mapM_buildElem_structural :
    ∀ (l : List JValue),
      (∀ e ∈ l, e.isObject = true → e.hasMember "map" = true → ∃ op, buildElem e = .ok op) →
      (∃ e ∈ l, ¬ e.isObject = true ∨ ¬ e.hasMember "map" = true) →
      ∃ msg, l.mapM buildElem = .error (.base .invalidArgument msg) := by
  intro l
  induction l with
  | nil => intro _ hbad; obtain ⟨e, he, _⟩ := hbad; simp at he
  | cons a l ih =>
    intro hgood hbad
    by_cases ha : a.isObject = true ∧ a.hasMember "map" = true
    · obtain ⟨op, hop⟩ := hgood a (by simp) ha.1 ha.2
      obtain ⟨e, he, hb⟩ := hbad
      rcases List.mem_cons.mp he with rfl | he'
      · rcases hb with hb | hb
        · exact absurd ha.1 hb
        · exact absurd ha.2 hb
      · obtain ⟨msg, hmsg⟩ := ih (fun e he => hgood e (by simp [he])) ⟨e, he', hb⟩
        exact ⟨msg, by rw [List.mapM_cons, hop, hmsg]; simp [Bind.bind, Except.bind]⟩
    · have hor : ¬ a.isObject = true ∨ ¬ a.hasMember "map" = true := by tauto
      obtain ⟨msg, hmsg⟩ := buildElem_bad a hor
      exact ⟨msg, by rw [List.mapM_cons, hmsg]; simp [Bind.bind, Except.bind]⟩

theorem stage_ok_of_elems_ok (d : JValue) (h : d.isArray = true) (ops : List Op)
    (hops : d.elemsOf.mapM buildElem = .ok ops) :
    stageBuilderNormalize d =
      .ok ⟨(List.range ops.length).map Cl.wrapper ++ [Cl.passThrough]⟩ := by
  unfold stageBuilderNormalize
  rw [if_neg (by simp [h])]
  rw [hops]
  simp [rethrowWrapped, broadcastBuilder, wrapOutputs]

theorem stage_err_of_elems_err (d : JValue) (h : d.isArray = true) (err : Err)
    (herr : d.elemsOf.mapM buildElem = .error err) :
    stageBuilderNormalize d = .error err := by
  unfold stageBuilderNormalize
  rw [if_neg (by simp [h])]
  rw [herr]

/-- C6: an empty top-level `normalize` array compiles successfully — no
branches are built, the one slot handed to broadcast is the appended
pass-through — and the resulting transformer is the identity on streams,
emitting every input document unchanged, one-to-one (for any positive fuel
bound on the evaluation). -/
theorem c6_empty_stage_identity (cap fuel : Nat) (input : List Doc) :
    stageBuilderNormalize (.arr [] cap) = .ok ⟨[Cl.passThrough]⟩
    ∧ evalStage ⟨[Cl.passThrough]⟩ (fuel + 1) input = some input := by
  constructor
  · rfl
  · show some (input ++ []) = some input
    simp

/-- C1: the claim states that the compiled transformer emits exactly one
output per input.  The code violates this for every configuration with at
least one branch: the suppression wrapper of source lines 266-273 captures by
reference the vector slot it is assigned into, so at invocation it calls
itself instead of the built branch.  For a one-branch configuration holding
one plain map entry assigning field a, the built stage is
`[wrapper 0, passThrough]`, and its evaluation yields no result for any fuel
bound and any input stream (the invocation never terminates), instead of the
claimed `L` outputs. -/
theorem c1_cardinality_broken :
    stageBuilderNormalize (.arr [.obj [("map", .obj [("a", .num 1)])]] 1)
      = .ok ⟨[Cl.wrapper 0, Cl.passThrough]⟩
    ∧ ∀ (fuel : Nat) (input : List Doc),
        evalStage ⟨[Cl.wrapper 0, Cl.passThrough]⟩ fuel input = none := by
  constructor
  · rfl
  · intro fuel input
    have h := wrapper_self_diverges [Cl.wrapper 0, Cl.passThrough] 0 rfl fuel input
    simp [evalStage, List.mapM, List.mapM.loop, h]

/-- C9: the claim states that each installed suppression wrapper invokes
exactly the originally built branch transformer and forwards none of its
outputs.  In the code the wrapping loop discards every originally built
`Lifter` (first conjunct: the slot list after the loop consists of
self-referencing wrappers only, whatever the built branches were), and a
wrapper's invocation dereferences its own slot and so never terminates and
never invokes any branch (second conjunct, at the one-branch slot layout,
for every fuel bound and input). -/
theorem c9_wrapper_self_reference :
    (∀ ops : List Op, wrapOutputs (ops.map Cl.built) ++ [Cl.passThrough]
        = (List.range ops.length).map Cl.wrapper ++ [Cl.passThrough])
    ∧ (∀ (fuel : Nat) (input : List Doc),
        evalCl [Cl.wrapper 0, Cl.passThrough] fuel (Cl.wrapper 0) input = none) := by
  constructor
  · intro ops; simp [wrapOutputs]
  · exact wrapper_self_diverges _ 0 rfl

/-- C5: the claim states that building the check half fails with
`InvalidArgument` whenever the value is not an array and whenever the array
is empty.  The source's emptiness guard tests rapidjson `Capacity()`, not the
element count: an empty array of capacity 0 does fail with the local
`InvalidArgument` (first conjunct), but an empty array with reserved capacity
1 slips past the guard and the failure instead surfaces from the nested
`check` operation builder, re-thrown as a `runtime_error` wrapper (second
conjunct) — not as the claimed `InvalidArgument`.  A non-array still fails
with the local `InvalidArgument` (third conjunct). -/
theorem c5_capacity_not_size :
    normalizeCheck (.arr [] 0)
      = .error (.base .invalidArgument "Invalid \"check\" object, it can not be empty.")
    ∧ normalizeCheck (.arr [] 1)
      = .error (.nested .runtime
          "Stage normalize builder encountered exception on building: [check builder: config must be a non-empty array]"
          (.base .invalidArgument "check builder: config must be a non-empty array"))
    ∧ normalizeCheck .null
      = .error (.base .invalidArgument "Invalid \"check\" object, it should be an array.") := by
  exact ⟨rfl, rfl, rfl⟩

/-- C4: a conditional entry (it has both `check` and `map`) whose member
count is not exactly two fails with the structural invalid-argument arity
error — the error carries no nested cause and does not depend on the member
values, so neither half was built — and an object entry without a `map`
member fails with the structural no-map error. -/
theorem c4_arity_validation (ms : List (String × JValue)) (e : JValue)
    (_hc : (JValue.obj ms).hasMember "check" = true)
    (_hm : (JValue.obj ms).hasMember "map" = true)
    (hn : ms.length ≠ 2)
    (ho : e.isObject = true) (hnm : e.hasMember "map" = false) :
    normalizeConditionalMap (.obj ms) = .error (.base .invalidArgument
      ("Invalid conditional map configuration, two (2) elements were expected, \"check\" and \"map\", but got: "
        ++ toString ms.length))
    ∧ buildElem e = .error (.base .invalidArgument
        "Stage normalize builder, there is a conditional map object with no \"map\" element on it.") := by
  constructor
  · simp [normalizeConditionalMap, JValue.memberCount, hn]
  · simp [buildElem, ho, hnm]

/-- Witness for C4 at a concrete three-member conditional entry and a
concrete empty object entry. -/
theorem c4_witness :
    normalizeConditionalMap (.obj [("check", .null), ("map", .null), ("x", .null)])
      = .error (.base .invalidArgument
        "Invalid conditional map configuration, two (2) elements were expected, \"check\" and \"map\", but got: 3")
    ∧ buildElem (.obj []) = .error (.base .invalidArgument
        "Stage normalize builder, there is a conditional map object with no \"map\" element on it.") := by
  have h := c4_arity_validation [("check", .null), ("map", .null), ("x", .null)] (.obj [])
    rfl rfl (by decide) rfl rfl
  exact h


/-- C3: assuming every nested branch build that is reached succeeds,
`stageBuilderNormalize` raises a structural (invalid-argument, causeless)
error if and only if the configuration is not an array, or some element is
not an object, or some object element lacks a `map` member; and an object
element with `map` and no `check` is compiled exactly as the plain map
branch built from its `map` member, while one with both `map` and `check`
is compiled exactly as the conditional-map branch built from the element. -/
theorem c3_structural_error_iff (v : JValue)
    (h : ∀ e ∈ v.elemsOf, e.isObject = true → e.hasMember "map" = true →
      ∃ op, buildElem e = .ok op) :
    ((∃ msg, stageBuilderNormalize v = .error (.base .invalidArgument msg)) ↔
      (¬ v.isArray = true
        ∨ ∃ e ∈ v.elemsOf, ¬ e.isObject = true ∨ ¬ e.hasMember "map" = true))
    ∧ (∀ e : JValue, e.isObject = true → e.hasMember "map" = true →
        e.hasMember "check" = false → buildElem e = normalizeMap (e.getMember "map"))
    ∧ (∀ e : JValue, e.isObject = true → e.hasMember "map" = true →
        e.hasMember "check" = true → buildElem e = normalizeConditionalMap e) := by
  refine ⟨?_, ?_, ?_⟩
  · by_cases harr : v.isArray = true
    · constructor
      · rintro ⟨msg, hmsg⟩
        by_contra hno
        push_neg at hno
        obtain ⟨_, hall⟩ := hno
        have hgood : ∀ e ∈ v.elemsOf, ∃ op, buildElem e = .ok op := by
          intro e he
          exact h e he (hall e he).1 (hall e he).2
        obtain ⟨ops, hops, _⟩ := mapM_ok_of_forall buildElem v.elemsOf hgood
        rw [stage_ok_of_elems_ok v harr ops hops] at hmsg
        simp at hmsg
      · rintro (habs | ⟨e, he, hbad⟩)
        · exact absurd harr habs
        · obtain ⟨msg, hmsg⟩ := mapM_buildElem_structural v.elemsOf h ⟨e, he, hbad⟩
          exact ⟨msg, stage_err_of_elems_err v harr _ hmsg⟩
    · have hstage : stageBuilderNormalize v = .error (.base .invalidArgument
          ("Stage normalize builder, expected \"normalize\" to be an array but got ["
            ++ toString v.getType ++ "].")) := by
        unfold stageBuilderNormalize
        rw [if_pos harr]
      exact ⟨fun _ => Or.inl harr, fun _ => ⟨_, hstage⟩⟩
  · intro e ho hm hc
    simp [buildElem, ho, hm, hc]
  · intro e ho hm hc
    simp [buildElem, ho, hm, hc]

/-- Witness for C3: a configuration whose single element is not an object
is rejected with a structural error. -/
theorem c3_witness :
    ∃ msg, stageBuilderNormalize (.arr [.num 1] 1)
      = .error (.base .invalidArgument msg) := by
  have h := c3_structural_error_iff (.arr [.num 1] 1) (by
    intro e he ho _
    simp [JValue.elemsOf] at he
    rw [he] at ho
    simp [JValue.isObject] at ho)
  exact h.1.mpr (Or.inr ⟨.num 1, by simp [JValue.elemsOf], Or.inl (by simp [JValue.isObject])⟩)

/-- C8: the stage build is all-or-nothing.  If some element of the
configuration fails to build, the whole build returns a single error and no
transformer; when it returns a transformer, every declared element was
built and the transformer wires one broadcast slot per declared branch plus
the trailing pass-through. -/
theorem c8_all_or_nothing (v : JValue) :
    ((∃ e ∈ v.elemsOf, ∀ op : Op, ¬ buildElem e = .ok op) →
      ∃ err, stageBuilderNormalize v = .error err)
    ∧ (∀ st : Stage, stageBuilderNormalize v = .ok st →
        (∀ e ∈ v.elemsOf, ∃ op, buildElem e = .ok op)
        ∧ st.slots = (List.range v.elemsOf.length).map Cl.wrapper ++ [Cl.passThrough]) := by
  constructor
  · intro hbad
    by_cases harr : v.isArray = true
    · obtain ⟨err, herr⟩ := mapM_error_of_exists_bad buildElem v.elemsOf hbad
      exact ⟨err, stage_err_of_elems_err v harr err herr⟩
    · refine ⟨.base .invalidArgument
        ("Stage normalize builder, expected \"normalize\" to be an array but got ["
          ++ toString v.getType ++ "]."), ?_⟩
      unfold stageBuilderNormalize
      rw [if_pos harr]
  · intro st hst
    by_cases harr : v.isArray = true
    · cases hops : v.elemsOf.mapM buildElem with
      | error err =>
        rw [stage_err_of_elems_err v harr err hops] at hst
        simp at hst
      | ok ops =>
        rw [stage_ok_of_elems_ok v harr ops hops] at hst
        have hlen := mapM_ok_length buildElem v.elemsOf ops hops
        constructor
        · exact mapM_ok_mem buildElem v.elemsOf ops hops
        · rw [← Except.ok.inj hst]
          simp [hlen]
    · unfold stageBuilderNormalize at hst
      rw [if_pos harr] at hst
      simp at hst

/-- Witness for C8: a failing element aborts the whole build, and the
successful empty build has exactly the pass-through slot. -/
theorem c8_witness :
    (∃ err, stageBuilderNormalize (.arr [.num 1] 1) = .error err)
    ∧ (Stage.mk [Cl.passThrough]).slots
        = (List.range (JValue.arr [] 0).elemsOf.length).map Cl.wrapper ++ [Cl.passThrough] := by
  constructor
  · refine (c8_all_or_nothing (.arr [.num 1] 1)).1 ⟨.num 1, by simp [JValue.elemsOf], ?_⟩
    intro op hop
    have : buildElem (JValue.num 1) = .error (.base .invalidArgument
      "Stage normalize builder, each \"normalize\" array element should be an object but got [6].") := rfl
    rw [this] at hop
    cases hop
  · exact ((c8_all_or_nothing (.arr [] 0)).2 ⟨[Cl.passThrough]⟩ rfl).2

/-- C10: an object element with a `map` member, no `check` member and
additional members of any name raises no structural error: its branch is
exactly the plain map branch built from the `map` value (so every other
member is silently ignored), and the stage containing only this element
compiles. -/
theorem c10_extra_members_ignored (ms : List (String × JValue))
    (hmap : (JValue.obj ms).hasMember "map" = true)
    (hcheck : (JValue.obj ms).hasMember "check" = false)
    (_hextra : 2 ≤ ms.length) :
    buildElem (.obj ms) = normalizeMap ((JValue.obj ms).getMember "map")
    ∧ ∀ b : Op, normalizeMap ((JValue.obj ms).getMember "map") = .ok b →
        stageBuilderNormalize (.arr [.obj ms] 1) = .ok ⟨[Cl.wrapper 0, Cl.passThrough]⟩ := by
  have h1 : buildElem (.obj ms) = normalizeMap ((JValue.obj ms).getMember "map") := by
    simp [buildElem, JValue.isObject, hmap, hcheck]
  refine ⟨h1, ?_⟩
  intro b hb
  have hmapm : ([JValue.obj ms]).mapM buildElem = .ok [b] := by
    rw [List.mapM_cons, h1, hb]
    simp [Bind.bind, Except.bind, Pure.pure, Except.pure]
    rfl
  have hok := stage_ok_of_elems_ok (.arr [.obj ms] 1) rfl [b] hmapm
  rw [hok]
  rfl

/-- Witness for C10 at an element carrying an extra member `extra`. -/
theorem c10_witness :
    buildElem (.obj [("map", .obj [("a", .num 1)]), ("extra", .num 5)])
      = normalizeMap ((JValue.obj [("map", .obj [("a", .num 1)]), ("extra", .num 5)]).getMember "map")
    ∧ stageBuilderNormalize (.arr [.obj [("map", .obj [("a", .num 1)]), ("extra", .num 5)]] 1)
      = .ok ⟨[Cl.wrapper 0, Cl.passThrough]⟩ := by
  have h := c10_extra_members_ignored [("map", .obj [("a", .num 1)]), ("extra", .num 5)]
    rfl rfl (by decide)
  exact ⟨h.1, h.2 (chainOf [.mapOp [("a", .num 1)]]) rfl⟩

/-- Any transformer that `normalizeCheck` returns is the chain of a single
`check` operation. -/
theorem normalizeCheck_shape (cv : JValue) (cOp : Op) (h : normalizeCheck cv = .ok cOp) :
    ∃ cs : List JValue, cOp = chainOf [.checkOp cs] := by
  cases cv with
  | arr cs cap =>
    by_cases hcap : cap = 0
    · subst hcap
      simp [normalizeCheck, JValue.isArray, JValue.capacity] at h
    · cases cs with
      | nil =>
        simp [normalizeCheck, JValue.isArray, JValue.capacity, hcap, checkBuilder,
          rethrowWrapped, Bind.bind, Except.bind] at h
      | cons c cs' =>
        refine ⟨c :: cs', ?_⟩
        simp [normalizeCheck, JValue.isArray, JValue.capacity, hcap, checkBuilder,
          rethrowWrapped, chainBuilder, Bind.bind, Except.bind] at h
        exact h.symm
  | null => simp [normalizeCheck, JValue.isArray] at h
  | bool b => simp [normalizeCheck, JValue.isArray] at h
  | num n => simp [normalizeCheck, JValue.isArray] at h
  | str s => simp [normalizeCheck, JValue.isArray] at h
  | obj ms => simp [normalizeCheck, JValue.isArray] at h

/-- Running a chained single `check` operation emits iff the conditions hold
and never mutates the document. -/
theorem runOp_check_chain (cs : List JValue) (d : Doc) :
    runOp (chainOf [.checkOp cs]) d = ⟨evalConds cs d, d⟩ := by
  by_cases h : evalConds cs d = true <;> simp [chainOf, runOp, h]

/-- A branch that neither emits nor mutates at its position in the branch
list is transparent to the sequential execution of the other branches. -/
theorem runBranches_middle (pre suf : List Op) (b : Op) (d : Doc)
    (h : runOp b (runBranches pre d) = ⟨false, runBranches pre d⟩) :
    runBranches (pre ++ b :: suf) d = runBranches suf (runBranches pre d) := by
  show List.foldl _ d (pre ++ b :: suf) = _
  rw [List.foldl_append, List.foldl_cons]
  show List.foldl _ ((runOp b (runBranches pre d)).doc) suf = _
  rw [h]
  rfl

/-- C2: a conditional entry (two members, `check` and `map`) builds to the
chain of the check transformer followed by the map transformer, and the
exact-two-member validation precedes building either half (any member list
of the wrong arity yields the causeless arity error whatever its member
values are).  Consequently, on a document where the check emits nothing the
branch emits nothing and leaves the document untouched — its map never
applies — while in a branch list the surrounding branches apply exactly as
if the failing branch were absent. -/
theorem c2_conditional_short_circuit (ms : List (String × JValue)) (cv mv : JValue)
    (cOp mOp : Op)
    (hcv : List.lookup "check" ms = some cv) (hmv : List.lookup "map" ms = some mv)
    (hlen : ms.length = 2)
    (hc : normalizeCheck cv = .ok cOp) (hm : normalizeMap mv = .ok mOp) :
    normalizeConditionalMap (.obj ms) = .ok (chainOf [cOp, mOp])
    ∧ (∀ ms' : List (String × JValue), ms'.length ≠ 2 →
        normalizeConditionalMap (.obj ms') = .error (.base .invalidArgument
          ("Invalid conditional map configuration, two (2) elements were expected, \"check\" and \"map\", but got: "
            ++ toString ms'.length)))
    ∧ (∀ d : Doc, (runOp cOp d).emitted = false →
        runOp (chainOf [cOp, mOp]) d = ⟨false, d⟩)
    ∧ (∀ (pre suf : List Op) (d : Doc),
        (runOp cOp (runBranches pre d)).emitted = false →
        runBranches (pre ++ chainOf [cOp, mOp] :: suf) d
          = runBranches suf (runBranches pre d)) := by
  obtain ⟨cs, rfl⟩ := normalizeCheck_shape cv cOp hc
  have h3 : ∀ d : Doc, (runOp (chainOf [.checkOp cs]) d).emitted = false →
      runOp (chainOf [chainOf [.checkOp cs], mOp]) d = ⟨false, d⟩ := by
    intro d hfalse
    have hev : evalConds cs d = false := by
      rw [runOp_check_chain] at hfalse
      exact hfalse
    have h1 : runOp (chainOf [.checkOp cs]) d = ⟨false, d⟩ := by
      rw [runOp_check_chain, hev]
    show runOp (.seq (chainOf [.checkOp cs]) (.seq mOp .idOp)) d = ⟨false, d⟩
    simp [runOp, hev]
  refine ⟨?_, ?_, h3, ?_⟩
  · unfold normalizeConditionalMap
    rw [if_neg (by simp [JValue.memberCount, hlen])]
    simp [JValue.getMember, hcv, hmv, hc, hm, rethrowWrapped, chainBuilder,
      Bind.bind, Except.bind]
  · intro ms' hne
    simp [normalizeConditionalMap, JValue.memberCount, hne]
  · intro pre suf d hfalse
    exact runBranches_middle pre suf _ d (h3 (runBranches pre d) hfalse)

/-- Witness for C2 at a concrete conditional entry whose check (field x
equals 1) fails on the empty document. -/
theorem c2_witness :
    normalizeConditionalMap
        (.obj [("check", .arr [.obj [("x", .num 1)]] 1), ("map", .obj [("a", .num 2)])])
      = .ok (chainOf [chainOf [.checkOp [.obj [("x", .num 1)]]], chainOf [.mapOp [("a", .num 2)]]])
    ∧ runOp (chainOf [chainOf [.checkOp [.obj [("x", .num 1)]]], chainOf [.mapOp [("a", .num 2)]]]) []
      = ⟨false, []⟩ := by
  have h := c2_conditional_short_circuit
    [("check", .arr [.obj [("x", .num 1)]] 1), ("map", .obj [("a", .num 2)])]
    (.arr [.obj [("x", .num 1)]] 1) (.obj [("a", .num 2)])
    (chainOf [.checkOp [.obj [("x", .num 1)]]]) (chainOf [.mapOp [("a", .num 2)]])
    rfl rfl rfl rfl rfl
  exact ⟨h.1, h.2.2.1 [] rfl⟩

/-- C7 counterexample: the claim says every failure raised while building a
nested element is caught at its call site and re-raised wrapped with context,
preserving the original as the inner cause.  But the element-classification
loop of `stageBuilderNormalize` (source lines 219-253) has no try/catch: for
the configuration whose single element is a plain map entry with an empty
`map` object, the build fails with the bare, causeless `InvalidArgument`
raised inside `normalizeMap` — no wrapper and no added context. -/
theorem c7_counterexample :
    stageBuilderNormalize (.arr [.obj [("map", .obj [])]] 1)
      = .error (.base .invalidArgument "Invalid \"map\" element, it can not be empty.") := rfl

/-- C7 amended: failures of the `check`/`map` halves inside
`normalizeConditionalMap` (and of the registry calls inside the helpers) are
caught at their call sites and re-raised wrapped with context preserving the
cause (first conjunct), but element-build failures propagate out of the
stage's classification loop unwrapped (the counterexample).  In particular a
malformed (empty) `map` nested inside a conditional entry at stage index 2
produces a single two-level failure whose outer message mentions, in order,
the normalize stage, the conditional-map `map`-side context and the
empty-map violation, with the original `InvalidArgument` as the inner cause
(second and third conjuncts). -/
theorem c7_amended_error_chain (ms : List (String × JValue)) (cv mv : JValue)
    (cOp : Op) (e : Err)
    (hcv : List.lookup "check" ms = some cv) (hmv : List.lookup "map" ms = some mv)
    (hlen : ms.length = 2)
    (hc : normalizeCheck cv = .ok cOp) (hm : normalizeMap mv = .error e) :
    normalizeConditionalMap (.obj ms) = .error (.nested .runtime
      ("Stage normalize conditional map builder encountered exception on building the \"map\" object: ["
        ++ e.what ++ "].") e)
    ∧ stageBuilderNormalize (.arr
        [.obj [("map", .obj [("a", .num 1)])],
         .obj [("map", .obj [("b", .num 2)])],
         .obj [("check", .arr [.obj [("x", .num 1)]] 1), ("map", .obj [])]] 3)
      = .error (.nested .runtime
          "Stage normalize conditional map builder encountered exception on building the \"map\" object: [Invalid \"map\" element, it can not be empty.]."
          (.base .invalidArgument "Invalid \"map\" element, it can not be empty."))
    ∧ (∃ s1 s2 s3 s4 : String,
        "Stage normalize conditional map builder encountered exception on building the \"map\" object: [Invalid \"map\" element, it can not be empty.]."
          = s1 ++ "normalize" ++ s2 ++ "\"map\" object" ++ s3 ++ "can not be empty" ++ s4) := by
  refine ⟨?_, rfl, ?_⟩
  · unfold normalizeConditionalMap
    rw [if_neg (by simp [JValue.memberCount, hlen])]
    simp [JValue.getMember, hcv, hmv, hc, hm, rethrowWrapped, chainBuilder,
      Bind.bind, Except.bind]
  · exact ⟨"Stage ", " conditional map builder encountered exception on building the ",
      ": [Invalid \"map\" element, it ", ".].", rfl⟩

/-- Witness for C7 (amended) at a concrete conditional entry with an empty
`map` object. -/
theorem c7_witness :
    normalizeConditionalMap (.obj [("check", .arr [.obj [("x", .num 1)]] 1), ("map", .obj [])])
      = .error (.nested .runtime
          "Stage normalize conditional map builder encountered exception on building the \"map\" object: [Invalid \"map\" element, it can not be empty.]."
          (.base .invalidArgument "Invalid \"map\" element, it can not be empty.")) := by
  have h := c7_amended_error_chain
    [("check", .arr [.obj [("x", .num 1)]] 1), ("map", .obj [])]
    (.arr [.obj [("x", .num 1)]] 1) (.obj [])
    (chainOf [.checkOp [.obj [("x", .num 1)]]])
    (.base .invalidArgument "Invalid \"map\" element, it can not be empty.")
    rfl rfl rfl rfl rfl
  exact h.1

end NormalizeStage
